import Mathlib

/-!
Verification of the flux core against its specification.

The development shallowly embeds three subsystems of the source:

* the cluster sync engine, which exists twice in the source: an inline-buffer
  version (src/cluster/kubernetes/release.go) and a rewrite using a separate
  executeSet type (src/unnamed/part_000);
* the release planner and executor (src/release/releaser.go): the concurrency
  gate, the action executor, the per-mode regrade computation and the
  UpdateManifest action;
* the registry cache warmer (the warmer document concatenated into
  src/release/releaser.go).

External collaborators (kubectl process runs, the git repo, the registry
transport, the cache store, the filesystem) are modelled as explicit outcome
parameters, so every definition is executable.
-/

namespace Flux

/-! ## Common map model

Go maps are key-unique; assignment overwrites the entry for the key.  We model
them as association lists where update replaces in place or appends. -/

def mapSet {α : Type} (m : List (String × α)) (k : String) (v : α) :
    List (String × α) :=
  if m.any (fun p => p.1 == k) then
    m.map (fun p => if p.1 == k then (p.1, v) else p)
  else m ++ [(k, v)]

def mapGet {α : Type} (m : List (String × α)) (k : String) : Option α :=
  (m.find? (fun p => p.1 == k)).map (fun p => p.2)

/-! ## Sync engine data model

Mirrors src/cluster/kubernetes/release.go and src/unnamed/part_000:
the apiObject manifests, the obj pairs, and the changeSet staging buffer. -/

structure ApiObject where
  bytes : String
  metaNamespace : String
deriving DecidableEq

/-- Modelled from the spec: the apiObject type and its hasDefaultNamespace
method live in a repository file that is not under src/.  Spec section 4.4: the
default sub-batch holds manifests whose declared namespace is default or
omitted. -/
def ApiObject.hasDefaultNamespace (o : ApiObject) : Bool :=
  o.metaNamespace == "" || o.metaNamespace == "default"

/-- Source: `type obj struct { id string; *apiObject }`. -/
structure Obj where
  id : String
  obj : ApiObject
deriving DecidableEq

/-- Source: `type changeSet struct { objs map[string][]obj }`.  A nil map and a
map whose entries are nil slices are observationally the same reader, so the
bucket map is modelled as a total function into lists. -/
structure ChangeSet where
  objs : String → List Obj

/-- Source: changeSet.stage appends under the operation bucket. -/
def ChangeSet.stage (c : ChangeSet) (cmd : String) (id : String) (o : ApiObject) :
    ChangeSet :=
  ⟨fun k => if k == cmd then c.objs k ++ [⟨id, o⟩] else c.objs k⟩

/-- Source: changeSet.clear sets every bucket present in the map to nil; absent
buckets already read as nil, so every bucket reads empty afterwards. -/
def ChangeSet.clear (_ : ChangeSet) : ChangeSet :=
  ⟨fun _ => []⟩

/-- Source: `var cmds = []string{"delete", "apply"}`. -/
def cmds : List String := ["delete", "apply"]

/-- One run of the external tool: the full argument list (connection arguments
prepended, `-f -` appended) and the bytes supplied on standard input. -/
structure Invocation where
  args : List String
  stdin : String
deriving DecidableEq

/-- The outcome of each possible tool run is a parameter of the model: `none`
is exit status zero, `some stderr` a nonzero exit with that error text. -/
abbrev Oracle : Type := Invocation → Option String

/-- The caller-supplied error map `cluster.SyncError = map[string]error`. -/
abbrev SyncError : Type := List (String × String)

/-- Source: doCommand appends `-f -`, prepends the connection arguments, runs
the tool and wraps a failure as "running kubectl: ...". -/
def doCommand (conn : List String) (oracle : Oracle) (stdin : String)
    (args : List String) : Invocation × Option String :=
  let inv : Invocation := ⟨conn ++ args ++ ["-f", "-"], stdin⟩
  (inv, (oracle inv).map (fun stderr => "running kubectl: " ++ stderr))

/-- The multi-document chunk each staged manifest contributes to the stream.
Both implementations write exactly these bytes: the inline version prints
"---" and then the manifest (each with a trailing newline), the executeSet
version prints "---\n" followed by the manifest with a trailing newline. -/
def chunk (o : Obj) : String := "---\n" ++ o.obj.bytes ++ "\n"

/-- The pair of multi-document streams (default-namespace sub-batch, other
sub-batch) accumulated over one operation bucket, in staging order. -/
def bufStep (p : String × String) (o : Obj) : String × String :=
  if o.obj.hasDefaultNamespace then (p.1 ++ chunk o, p.2) else (p.1, p.2 ++ chunk o)

def inlineBuffers (l : List Obj) : String × String :=
  l.foldl bufStep ("", "")

/-! ### Inline-buffer implementation (src/cluster/kubernetes/release.go) -/

/-- One operation of the inline-buffer execute.

In the source, defaultSet and otherSet are executeSet VALUES.  Inside the
staging loop, `set := defaultSet` copies the whole value, so the promoted
stage method allocates its objs map inside the copy; defaultSet.objs and
otherSet.objs stay nil for the entire loop.  Only the shared pointer to the
bytes.Buffer observes the writes.  Consequently the recovery loops below,
which range over `defaultSet.objs[cmd]` and `otherSet.objs[cmd]`, range over
an empty slice: that is rendered here by `lost := []`. -/
def inlineStep (conn : List String) (oracle : Oracle) (k : ChangeSet)
    (acc : List Invocation × SyncError) (cmd : String) :
    List Invocation × SyncError :=
  let bufs := inlineBuffers (k.objs cmd)
  let lost : List Obj := []
  let (inv1, r1) := doCommand conn oracle bufs.1 [cmd, "--namespace", "default"]
  let a1 : List Invocation × SyncError :=
    match r1 with
    | none => (acc.1 ++ [inv1], acc.2)
    | some _ =>
      lost.foldl (fun (a : List Invocation × SyncError) o =>
        let (inv, r) := doCommand conn oracle o.obj.bytes [cmd, "--namespace", "default"]
        match r with
        | none => (a.1 ++ [inv], a.2)
        | some e => (a.1 ++ [inv], mapSet a.2 o.id e)) (acc.1 ++ [inv1], acc.2)
  let (inv2, r2) := doCommand conn oracle bufs.2 [cmd]
  match r2 with
  | none => (a1.1 ++ [inv2], a1.2)
  | some _ =>
    lost.foldl (fun (a : List Invocation × SyncError) o =>
      let (inv, r) := doCommand conn oracle o.obj.bytes [cmd]
      match r with
      | none => (a.1 ++ [inv], a.2)
      | some e => (a.1 ++ [inv], mapSet a.2 o.id e)) (a1.1 ++ [inv2], a1.2)

/-- Source: Kubectl.execute of src/cluster/kubernetes/release.go.  Returns the
tool invocations performed in order, the final error map, and the change-set
left behind (`defer c.changeSet.clear()`). -/
def executeInline (conn : List String) (oracle : Oracle) (k : ChangeSet)
    (errs : SyncError) : List Invocation × SyncError × ChangeSet :=
  let r := cmds.foldl (inlineStep conn oracle k) ([], errs)
  (r.1, r.2, k.clear)

/-! ### executeSet implementation (src/unnamed/part_000) -/

/-- Source: `type executeSet struct { cmd []string; rw io.ReadWriter; objs []obj }`.
The rw field holds the buffer contents. -/
structure ExecuteSet where
  cmd : List String
  rw : String
  objs : List Obj
deriving DecidableEq

def newExecuteSet (cmd : List String) : ExecuteSet :=
  ⟨cmd, "", []⟩

/-- Source: executeSet.stage appends the obj and prints "---\n" plus the
manifest bytes (with a trailing newline) to the buffer. -/
def ExecuteSet.stage (s : ExecuteSet) (o : Obj) : ExecuteSet :=
  { s with objs := s.objs ++ [o], rw := s.rw ++ chunk o }

/-- Routing one obj: `set := defaultSet; if !obj.hasDefaultNamespace() { set = otherSet }`.
Here the sets are pointers (newExecuteSet returns *executeSet), so the staging
really lands in the chosen set. -/
def stagePair (p : ExecuteSet × ExecuteSet) (o : Obj) : ExecuteSet × ExecuteSet :=
  if o.obj.hasDefaultNamespace then (p.1.stage o, p.2) else (p.1, p.2.stage o)

def stageAll (cmd : String) (l : List Obj) : ExecuteSet × ExecuteSet :=
  l.foldl stagePair (newExecuteSet [cmd, "--namespace", "default"], newExecuteSet [cmd])

/-- Source: Kubectl.exec of src/unnamed/part_000.  Empty sets are skipped;
otherwise the bulk stream is sent, and on a nonzero exit every staged manifest
is re-sent alone, recording per-manifest failures in the error map. -/
def execSet (conn : List String) (oracle : Oracle) (s : ExecuteSet)
    (errs : SyncError) : List Invocation × SyncError :=
  if s.objs.length == 0 then ([], errs)
  else
    let (inv, r) := doCommand conn oracle s.rw s.cmd
    match r with
    | none => ([inv], errs)
    | some _ =>
      s.objs.foldl (fun (a : List Invocation × SyncError) o =>
        let (inv2, r2) := doCommand conn oracle o.obj.bytes s.cmd
        match r2 with
        | none => (a.1 ++ [inv2], a.2)
        | some e => (a.1 ++ [inv2], mapSet a.2 o.id e)) ([inv], errs)

def setStep (conn : List String) (oracle : Oracle) (k : ChangeSet)
    (acc : List Invocation × SyncError) (cmd : String) :
    List Invocation × SyncError :=
  let sets := stageAll cmd (k.objs cmd)
  let r1 := execSet conn oracle sets.1 acc.2
  let r2 := execSet conn oracle sets.2 r1.2
  (acc.1 ++ r1.1 ++ r2.1, r2.2)

/-- Source: Kubectl.execute of src/unnamed/part_000. -/
def executeSetBased (conn : List String) (oracle : Oracle) (k : ChangeSet)
    (errs : SyncError) : List Invocation × SyncError × ChangeSet :=
  let r := cmds.foldl (setStep conn oracle k) ([], errs)
  (r.1, r.2, k.clear)

/-! ## Release concurrency gate (src/release/releaser.go, Release)

Source:
```
select {
case r.semaphore <- struct{}{}:
  break // acquired
default:
  return errors.New("a release is already in progress; please try again later")
}
defer func() { <-r.semaphore }()
```
The semaphore is a channel of capacity maxSimultaneousReleases = 1; the
occupancy is the number of tokens currently in the channel.  A non-blocking
send succeeds exactly when the occupancy is below the capacity.  The deferred
receive runs on every way out of Release, including a panic unwinding out of
an action body, because Go runs deferred functions during panicking. -/

def maxSimultaneousReleases : Nat := 1

def alreadyInProgress : String :=
  "a release is already in progress; please try again later"

/-- How the guarded body of Release (mode dispatch, planning, action
execution) finishes once it runs. -/
inductive BodyOutcome
  | ok
  | fail (e : String)
  | panics
deriving DecidableEq

inductive ReleaseExit
  | returned (err : Option String)
  | panicked
deriving DecidableEq

def bodyExit : BodyOutcome → ReleaseExit
  | .ok => .returned none
  | .fail e => .returned (some e)
  | .panics => .panicked

/-- Observables of one Release call against the gate: the semaphore occupancy
while the guarded body runs, the occupancy after the call is over, how the
call exits, and whether the guarded body ran at all. -/
structure GateRun where
  duringBody : Nat
  final : Nat
  exitKind : ReleaseExit
  bodyRan : Bool
deriving DecidableEq

def releaseGate (held : Nat) (body : BodyOutcome) : GateRun :=
  if held < maxSimultaneousReleases then
    let acquired := held + 1
    { duringBody := acquired, final := held, exitKind := bodyExit body, bodyRan := true }
  else
    { duringBody := held, final := held,
      exitKind := .returned (some alreadyInProgress), bodyRan := false }

/-! ## Release action executor (src/release/releaser.go, execute)

Side effects of action bodies (clone, manifest writes, commit and push,
cluster regrades, cache writes) are reified as an effect trace; the result
sink is the sequence of strings handed to updateJob. -/

inductive ReleaseKind
  | plan
  | execute
deriving DecidableEq

inductive Effect
  | cloneRepo
  | mutateRepo
  | clusterMutation
  | cacheWrite
  | other (tag : String)
deriving DecidableEq

/-- The release context created per release: clone path, key path and the
per-workload mutated-manifest map (flux.ReleaseContext). -/
structure ReleaseContext where
  repoPath : String
  repoKey : String
  podControllers : List (String × String)
deriving DecidableEq

def newReleaseContext : ReleaseContext := ⟨"", "", []⟩

/-- What one action body does when it actually runs. -/
structure DoOutcome where
  rc : ReleaseContext
  effects : List Effect
  result : String
  err : Option String

/-- Source: flux.ReleaseAction, a description plus an optional Do body. -/
structure ReleaseAction where
  description : String
  doBody : Option (ReleaseContext → DoOutcome)

/-- Source: releaser.execute.  For each action the description goes to the
sink (updateJob) and the log; a nil Do is skipped; the body runs only under
ReleaseKindExecute.  A body error goes to the sink and aborts the plan; a
non-empty result string goes to the sink.  (The release context is created
fresh at entry and torn down by `defer rc.Clean()`; the per-action Result
bookkeeping on the actions slice carries no behavior and is omitted.)
Returns the sink messages in order, the effect trace, and the terminal
error. -/
def executeActions : List ReleaseAction → ReleaseKind → ReleaseContext →
    List String × List Effect × Option String
  | [], _, _ => ([], [], none)
  | a :: rest, kind, rc =>
    match a.doBody with
    | none =>
      let r := executeActions rest kind rc
      (a.description :: r.1, r.2.1, r.2.2)
    | some f =>
      match kind with
      | .plan =>
        let r := executeActions rest kind rc
        (a.description :: r.1, r.2.1, r.2.2)
      | .execute =>
        let out := f rc
        match out.err with
        | some e => ([a.description, e], out.effects, some e)
        | none =>
          let extra := if out.result == "" then [] else [out.result]
          let r := executeActions rest kind out.rc
          (a.description :: (extra ++ r.1), out.effects ++ r.2.1, r.2.2)

/-! ## UpdateManifest action (src/release/releaser.go, releaseActionUpdatePodController)

Filesystem, resource-file discovery (kubernetes.FilesFor) and the manifest
mutator (kubernetes.UpdatePodController) are collaborators outside the
planner; their outcomes are fields of an environment record. -/

/-- An image reference: host, repository name, tag
(flux.ImageID; Repository() is the host and name without the tag). -/
structure ImageID where
  host : String
  name : String
  tag : String
deriving DecidableEq

def ImageID.repository (i : ImageID) : String × String := (i.host, i.name)

def ImageID.render (i : ImageID) : String :=
  i.host ++ "/" ++ i.name ++ ":" ++ i.tag

/-- Source: containerRegrade. -/
structure ContainerRegrade where
  container : String
  current : ImageID
  target : ImageID
deriving DecidableEq

structure UpdateEnv where
  /-- os.Stat on the resource path reports a directory. -/
  resourcePathValid : Bool
  /-- kubernetes.FilesFor: the manifest files matching the workload. -/
  filesFor : Except String (List String)
  /-- ioutil.ReadFile per path. -/
  readFile : String → Except String String
  /-- os.Stat per path (the file mode is irrelevant here). -/
  statFile : String → Except String Unit
  /-- kubernetes.UpdatePodController: document bytes and target image in,
  new document bytes out. -/
  updatePod : String → String → Except String String
  /-- ioutil.WriteFile of the given path and contents. -/
  writeFile : String → String → Except String Unit

def skipMessage (service : String) : String :=
  "no resource definition file found for " ++ service ++ "; skipping"

def multipleMessage (service : String) (files : List String) : String :=
  "multiple resource definition files found for " ++ service ++ ": " ++
    String.intercalate ", " files

/-- Source: the regrade loop of releaseActionUpdatePodController: the same
document is overwritten once per regrade, mutating towards each target. -/
def applyRegrades (env : UpdateEnv) : String → List ContainerRegrade →
    Except String String
  | d, [] => .ok d
  | d, r :: rest =>
    match env.updatePod d r.target.render with
    | .error e =>
      .error ("updating pod controller for " ++ r.target.render ++ ": " ++ e)
    | .ok d2 => applyRegrades env d2 rest

/-- Source: the Do body of releaseActionUpdatePodController.  Zero matching
files returns the skip message WITHOUT an error; two or more files is an
error; exactly one file is read, mutated once per regrade, written back and
stored in the release context map. -/
def updatePodControllerDo (env : UpdateEnv) (service : String)
    (regrades : List ContainerRegrade) (rc : ReleaseContext) :
    ReleaseContext × Except String String :=
  if !env.resourcePathValid then
    (rc, .error "the resource path is not valid")
  else
    match env.filesFor with
    | .error e =>
      (rc, .error ("finding resource definition file for " ++ service ++ ": " ++ e))
    | .ok [] => (rc, .ok (skipMessage service))
    | .ok (f1 :: f2 :: rest) =>
      (rc, .error (multipleMessage service (f1 :: f2 :: rest)))
    | .ok [f] =>
      match env.readFile f with
      | .error e => (rc, .error e)
      | .ok d0 =>
        match env.statFile f with
        | .error e => (rc, .error e)
        | .ok _ =>
          match applyRegrades env d0 regrades with
          | .error e => (rc, .error e)
          | .ok d =>
            match env.writeFile f d with
            | .error e => (rc, .error e)
            | .ok _ =>
              ({ rc with podControllers := mapSet rc.podControllers service d },
                .ok "Update pod controller OK.")

/-! ## Release modes: regrade computation (src/release/releaser.go)

The cluster snapshot is a list of containers per workload; the registry
collaborator (helper.RegistryGetRepository and ImageRepository.LatestImage,
outside src/) is a function from a repository to its reported state. -/

structure Container where
  name : String
  image : ImageID
deriving DecidableEq

/-- The state the registry collaborator reports for one repository: its name,
its images, and the outcome of LatestImage (the tag with the greatest
creation timestamp). -/
structure ImageRepo where
  name : String
  images : List ImageID
  latest : Except String ImageID

abbrev Registry : Type := String × String → Except String ImageRepo

/-- A registry is well-formed when the latest image it reports for a
repository belongs to that repository.  The planner relies on this contract
of the collaborator; it performs no check of its own. -/
def RegistryContract (reg : Registry) : Prop :=
  ∀ key info i, reg key = .ok info → info.latest = .ok i → i.repository = key

/-- Source: the per-container loop of releaseOne.  A container whose image is
in a different repository than the target is ignored; one already equal to
the target is skipped; otherwise a regrade (name, current, target) is
recorded.  The loop of releaseAllForImage applies the same tests per
container (only the progress messages differ). -/
def regradesForTarget (target : ImageID) : List Container → List ContainerRegrade
  | [] => []
  | c :: rest =>
    if c.image.repository ≠ target.repository then regradesForTarget target rest
    else if c.image = target then regradesForTarget target rest
    else ⟨c.name, c.image, target⟩ :: regradesForTarget target rest

/-- Source: the regradeMap construction of releaseAllForImage over the
container map (services already filtered by the exclusion set). -/
def releaseAllForImageMap (target : ImageID)
    (containerMap : List (String × List Container)) :
    List (String × List ContainerRegrade) :=
  containerMap.foldl (fun acc p =>
    if (regradesForTarget target p.2).isEmpty then acc
    else acc ++ [(p.1, regradesForTarget target p.2)]) []

/-- Source: the per-container loop of releaseOneToLatest.  Fetching the
repository or its latest image can fail (aborting the release); a repository
with no images is skipped; a container already at the latest image is
skipped; otherwise a regrade to the latest image is recorded. -/
def releaseOneToLatestRegrades (reg : Registry) : List Container →
    Except String (List ContainerRegrade)
  | [] => .ok []
  | c :: rest =>
    match reg c.image.repository with
    | .error e => .error ("fetching repository for " ++ c.image.render ++ ": " ++ e)
    | .ok info =>
      if info.images.length ≤ 0 then releaseOneToLatestRegrades reg rest
      else
        match info.latest with
        | .error e => .error ("getting latest image from " ++ info.name ++ ": " ++ e)
        | .ok latestID =>
          if c.image = latestID then releaseOneToLatestRegrades reg rest
          else
            match releaseOneToLatestRegrades reg rest with
            | .error e => .error e
            | .ok rs => .ok (⟨c.name, c.image, latestID⟩ :: rs)

/-- Source: the per-container loop of releaseAllToLatest (which, unlike
releaseOneToLatest, has no empty-repository skip). -/
def releaseAllToLatestRegrades (reg : Registry) : List Container →
    Except String (List ContainerRegrade)
  | [] => .ok []
  | c :: rest =>
    match reg c.image.repository with
    | .error e => .error ("fetching image repo for " ++ c.image.render ++ ": " ++ e)
    | .ok info =>
      match info.latest with
      | .error e => .error ("getting latest image from " ++ info.name ++ ": " ++ e)
      | .ok latestID =>
        if c.image = latestID then releaseAllToLatestRegrades reg rest
        else
          match releaseAllToLatestRegrades reg rest with
          | .error e => .error e
          | .ok rs => .ok (⟨c.name, c.image, latestID⟩ :: rs)

/-- Source: the regradeMap construction of releaseAllToLatest. -/
def releaseAllToLatestMap (reg : Registry) :
    List (String × List Container) →
    Except String (List (String × List ContainerRegrade))
  | [] => .ok []
  | (sid, cs) :: rest =>
    match releaseAllToLatestRegrades reg cs with
    | .error e => .error e
    | .ok rs =>
      match releaseAllToLatestMap reg rest with
      | .error e => .error e
      | .ok m => .ok (if rs.isEmpty then m else (sid, rs) :: m)

/-- The container-regrade invariant of the data model: same repository,
different reference. -/
def regradeInvariant (r : ContainerRegrade) : Bool :=
  (r.current.repository == r.target.repository) && !(r.current == r.target)

/-! ## Registry cache warmer (warmer document of src/release/releaser.go)

The registry client, the JSON serialisation, the cache keys and the cache
store are collaborators; their outcomes are fields of an environment record.
The bounded fan-out of manifest fetches is transcribed sequentially in fetch
order (missing before expiring); no claim concerns the interleaving. -/

/-- Source: refreshWhenExpiryWithin = 5 * time.Minute, here in seconds. -/
def refreshWhenExpiryWithin : Int := 5 * 60

def ImageID.withNewTag (i : ImageID) (tag : String) : ImageID :=
  { i with tag := tag }

/-- Outcome of Reader.GetExpiration for one manifest key. -/
inductive CacheExpiry
  | notCached
  | present (expiry : Int)
  | err (e : String)

structure WarmEnv where
  /-- ClientFactory.ClientFor for the host. -/
  clientFor : Except String Unit
  /-- client.Tags for the repository. -/
  tagsResult : Except String (List String)
  /-- json.Marshal of the tag list. -/
  marshalTags : Except String String
  /-- cache.NewTagKey for (username, repository). -/
  tagKey : Except String String
  /-- Writer.SetKey of the serialised tag list. -/
  setTagKey : Except String Unit
  /-- cache.NewManifestKey for (username, image with the given tag). -/
  manifestKey : String → Except String String
  /-- Reader.GetExpiration per manifest key. -/
  getExpiration : String → CacheExpiry
  /-- The current instant, in the units of the expiry instants. -/
  now : Int
  /-- client.Manifest per image reference (the write-back of the fetched
  manifest is a further cache write not needed by any claim). -/
  manifest : ImageID → Except String Unit

inductive WarmEvent
  | logged (e : String)
  | tagListWritten
  | expirationRead (key : String)
  | manifestRequested (i : ImageID)
  | manifestWritten (i : ImageID)
deriving DecidableEq

structure WarmOutcome where
  events : List WarmEvent
  missing : List ImageID
  expiring : List ImageID
  fetched : List ImageID
deriving DecidableEq

/-- Source: the per-tag loop of warm.  A key-construction failure logs and
moves on; ErrNotCached classifies the tag as missing; a present entry is
skipped when its expiry is more than refreshWhenExpiryWithin away from now
and classified as expiring otherwise; any other read error is logged.
(The source logs transient deadline errors selectively elsewhere; nothing in
this loop is suppressed.) -/
def classifyTags (env : WarmEnv) (id : ImageID) :
    List String → List WarmEvent × List ImageID × List ImageID
  | [] => ([], [], [])
  | tag :: rest =>
    let i := id.withNewTag tag
    let cur : List WarmEvent × List ImageID × List ImageID :=
      match env.manifestKey tag with
      | .error e => ([.logged ("creating key for memcache: " ++ e)], [], [])
      | .ok key =>
        match env.getExpiration key with
        | .notCached => ([.expirationRead key], [i], [])
        | .present expiry =>
          if expiry - env.now > refreshWhenExpiryWithin then
            ([.expirationRead key], [], [])
          else
            ([.expirationRead key], [], [i])
        | .err e => ([.expirationRead key, .logged e], [], [])
    let r := classifyTags env id rest
    (cur.1 ++ r.1, cur.2.1 ++ r.2.1, cur.2.2 ++ r.2.2)

/-- Source: the fan-out goroutines of warm, one client.Manifest call per
image of toUpdate; failures are logged, successes written back. -/
def fetchManifests (env : WarmEnv) : List ImageID → List WarmEvent
  | [] => []
  | i :: rest =>
    let cur := match env.manifest i with
      | .error e => [WarmEvent.manifestRequested i, .logged ("requesting manifests: " ++ e)]
      | .ok _ => [WarmEvent.manifestRequested i, .manifestWritten i]
    cur ++ fetchManifests env rest

/-- Source: Warmer.warm for one image.  Each failure up to and including the
tag-list cache write logs and returns at once; only then is the per-tag loop
reached, and toUpdate = append(missing, expiring...) is fetched when it is
non-empty. -/
def warm (env : WarmEnv) (id : ImageID) : WarmOutcome :=
  match env.clientFor with
  | .error e => ⟨[.logged e], [], [], []⟩
  | .ok _ =>
    match env.tagsResult with
    | .error e => ⟨[.logged ("requesting tags: " ++ e)], [], [], []⟩
    | .ok tags =>
      match env.marshalTags with
      | .error e => ⟨[.logged ("serializing tags to store in cache: " ++ e)], [], [], []⟩
      | .ok _ =>
        match env.tagKey with
        | .error e => ⟨[.logged ("creating key for cache: " ++ e)], [], [], []⟩
        | .ok _ =>
          match env.setTagKey with
          | .error e => ⟨[.logged ("storing tags in cache: " ++ e)], [], [], []⟩
          | .ok _ =>
            let cl := classifyTags env id tags
            let toUpdate := cl.2.1 ++ cl.2.2
            if cl.2.2.length + cl.2.1.length > 0 then
              ⟨[.tagListWritten] ++ cl.1 ++ fetchManifests env toUpdate,
                cl.2.1, cl.2.2, toUpdate⟩
            else
              ⟨[.tagListWritten] ++ cl.1, cl.2.1, cl.2.2, []⟩

/-- Characterisation of the per-tag loop: the tag reads as NotCached through a
well-formed manifest key. -/
def tagMissing (env : WarmEnv) (t : String) : Bool :=
  match env.manifestKey t with
  | .error _ => false
  | .ok key =>
    match env.getExpiration key with
    | .notCached => true
    | .present _ => false
    | .err _ => false

/-- Characterisation of the per-tag loop: the tag reads as present with an
expiry within the refresh horizon of now. -/
def tagExpiring (env : WarmEnv) (t : String) : Bool :=
  match env.manifestKey t with
  | .error _ => false
  | .ok key =>
    match env.getExpiration key with
    | .notCached => false
    | .present expiry =>
      if expiry - env.now > refreshWhenExpiryWithin then false else true
    | .err _ => false

/-! ## Concrete instances used to evaluate the model -/

/-- Every tool invocation exits zero. -/
def okOracle : Oracle := fun _ => none

/-- Every tool invocation exits nonzero with stderr "boom". -/
def failingOracle : Oracle := fun _ => some "boom"

def noErrors : SyncError := []

def emptyChangeSet : ChangeSet := ⟨fun _ => []⟩

/-- One staged apply manifest, id "a", bytes "m", namespace default. -/
def oneManifestCS : ChangeSet :=
  ⟨fun cmd => if cmd == "apply" then [⟨"a", ⟨"m", "default"⟩⟩] else []⟩

/-- Both operations carry one default-namespace and one other-namespace
manifest. -/
def fourManifestCS : ChangeSet :=
  ⟨fun cmd =>
    if cmd == "delete" then [⟨"d1", ⟨"x", "default"⟩⟩, ⟨"d2", ⟨"y", "kube"⟩⟩]
    else if cmd == "apply" then [⟨"a1", ⟨"z", ""⟩⟩, ⟨"a2", ⟨"w", "other"⟩⟩]
    else []⟩

/-- Checkout with no manifest file matching the workload. -/
def zeroFilesEnv : UpdateEnv where
  resourcePathValid := true
  filesFor := .ok []
  readFile := fun _ => .error "unused"
  statFile := fun _ => .ok ()
  updatePod := fun _ _ => .error "unused"
  writeFile := fun _ _ => .error "unused"

/-- Checkout with exactly one matching manifest file whose read, mutation and
write all succeed. -/
def oneFileEnv : UpdateEnv where
  resourcePathValid := true
  filesFor := .ok ["f"]
  readFile := fun _ => .ok "doc"
  statFile := fun _ => .ok ()
  updatePod := fun d _ => .ok d
  writeFile := fun _ _ => .ok ()

/-- A registry whose repositories each report one image, tagged v2, as
latest. -/
def latestOf (key : String × String) : ImageID := ⟨key.1, key.2, "v2"⟩

def happyRegistry : Registry :=
  fun key => .ok ⟨key.2, [latestOf key], .ok (latestOf key)⟩

/-- A warm pass in which everything up to the tag-list store succeeds and the
single tag t1 has no cached manifest. -/
def notCachedWarmEnv : WarmEnv where
  clientFor := .ok ()
  tagsResult := .ok ["t1"]
  marshalTags := .ok "serialized"
  tagKey := .ok "tk"
  setTagKey := .ok ()
  manifestKey := fun _ => .ok "k1"
  getExpiration := fun _ => .notCached
  now := 0
  manifest := fun _ => .ok ()

/-- A warm pass in which serializing the tag list fails. -/
def marshalFailWarmEnv : WarmEnv where
  clientFor := .ok ()
  tagsResult := .ok ["t1"]
  marshalTags := .error "marshal"
  tagKey := .ok "tk"
  setTagKey := .ok ()
  manifestKey := fun _ => .ok "k1"
  getExpiration := fun _ => .notCached
  now := 0
  manifest := fun _ => .ok ()

def WarmEvent.isPerTagRead : WarmEvent → Bool
  | .expirationRead _ => true
  | _ => false

def WarmEvent.isManifestRequest : WarmEvent → Bool
  | .manifestRequested _ => true
  | _ => false

/-! # Theorems -/

/-- C1: with the capacity-1 semaphore, a Release call that finds the slot
taken returns at once with the fixed busy error, runs none of the guarded
body (no planning, no actions, no release-state change) and leaves the
occupancy untouched; a call that finds the slot free runs the body with the
occupancy at exactly one and releases the slot on every exit path, whether
the body returns normally, returns an error, or panics.  Hence at most one
release is ever in flight. -/
theorem release_gate_single_flight (body : BodyOutcome) :
    releaseGate 1 body =
      { duringBody := 1, final := 1,
        exitKind := .returned (some alreadyInProgress), bodyRan := false } ∧
    releaseGate 0 body =
      { duringBody := 1, final := 0, exitKind := bodyExit body, bodyRan := true } :=
  ⟨rfl, rfl⟩

/-- C3: executing an action plan under release-kind PLAN reports every
action description to the result sink, in order, performs no side effect at
all (no repository clone or mutation, no cluster mutation, no cache write:
the effect trace is empty because no Do body runs) and returns no error. -/
theorem plan_kind_no_side_effects (actions : List ReleaseAction)
    (rc : ReleaseContext) :
    executeActions actions .plan rc =
      (actions.map (fun a => a.description), [], none) := by
  induction actions generalizing rc with
  | nil => rfl
  | cons a rest ih =>
    cases h : a.doBody <;> simp [executeActions, h, ih]

/-- C5: after execute, in either sync-engine implementation, every operation
bucket of the staged change-set is empty (the deferred clear runs regardless
of the invocation outcomes). -/
theorem changeSet_empty_after_execute (conn : List String) (oracle : Oracle)
    (k : ChangeSet) (errs : SyncError) (cmd : String) :
    (executeInline conn oracle k errs).2.2.objs cmd = [] ∧
    (executeSetBased conn oracle k errs).2.2.objs cmd = [] :=
  ⟨rfl, rfl⟩

/-- C6 (amended): in the executeSet-based engine of src/unnamed/part_000, a
sub-batch with no staged manifests causes no tool invocation and no error-map
change.  (The inline-buffer engine lacks this guard; see the
counterexample.) -/
theorem execSet_skips_empty_subbatch (conn : List String) (oracle : Oracle)
    (s : ExecuteSet) (errs : SyncError) (h : s.objs = []) :
    execSet conn oracle s errs = ([], errs) := by
  simp [execSet, h]

theorem execSet_skips_empty_subbatch_witness :
    execSet [] okOracle (newExecuteSet ["apply"]) noErrors = ([], noErrors) :=
  execSet_skips_empty_subbatch [] okOracle (newExecuteSet ["apply"]) noErrors rfl

/-- C6 (counterexample): the inline-buffer engine of
src/cluster/kubernetes/release.go runs the tool even for empty sub-batches:
on an empty change-set it still performs four bulk invocations (delete and
apply, default and other sub-batch), each with empty standard input. -/
theorem inline_execute_empty_subbatch_invokes :
    (executeInline [] okOracle emptyChangeSet noErrors).1 =
      [⟨["delete", "--namespace", "default", "-f", "-"], ""⟩,
       ⟨["delete", "-f", "-"], ""⟩,
       ⟨["apply", "--namespace", "default", "-f", "-"], ""⟩,
       ⟨["apply", "-f", "-"], ""⟩] ∧
    (executeInline [] okOracle emptyChangeSet noErrors).1 ≠ [] := by
  refine ⟨rfl, ?_⟩
  decide

/-- C2 (counterexample): when the checkout contains zero manifest files for
the workload, the UpdateManifest action does NOT return an error: it returns
nil with a "skipping" message, and neither mutates nor stores anything. -/
theorem updateManifest_zero_files_no_error :
    updatePodControllerDo zeroFilesEnv "default/helloworld" [] newReleaseContext =
      (newReleaseContext, .ok (skipMessage "default/helloworld")) :=
  rfl

/-- C2 (amended): zero matching manifest files yields success with a skip
message and no mutation or store; more than one matching file is an error
(again with no mutation or store); with exactly one matching file whose
read, per-regrade mutation and write-back succeed, the action succeeds,
writing the mutated document and storing it in the release context. -/
theorem updateManifest_match_cases (env : UpdateEnv) (service : String)
    (regrades : List ContainerRegrade) (rc : ReleaseContext)
    (hv : env.resourcePathValid = true) :
    (env.filesFor = .ok [] →
      updatePodControllerDo env service regrades rc = (rc, .ok (skipMessage service))) ∧
    (∀ f1 f2 rest, env.filesFor = .ok (f1 :: f2 :: rest) →
      updatePodControllerDo env service regrades rc =
        (rc, .error (multipleMessage service (f1 :: f2 :: rest)))) ∧
    (∀ f d0 d, env.filesFor = .ok [f] → env.readFile f = .ok d0 →
      env.statFile f = .ok () → applyRegrades env d0 regrades = .ok d →
      env.writeFile f d = .ok () →
      updatePodControllerDo env service regrades rc =
        ({ rc with podControllers := mapSet rc.podControllers service d },
          .ok "Update pod controller OK.")) := by
  refine ⟨fun h0 => ?_, fun f1 f2 rest hm => ?_, fun f d0 d hf hr hs ha hw => ?_⟩
  · simp [updatePodControllerDo, hv, h0]
  · simp [updatePodControllerDo, hv, hm]
  · simp [updatePodControllerDo, hv, hf, hr, hs, ha, hw]

theorem updateManifest_match_cases_witness :
    updatePodControllerDo oneFileEnv "svc" [] newReleaseContext =
      ({ newReleaseContext with
          podControllers := mapSet newReleaseContext.podControllers "svc" "doc" },
        .ok "Update pod controller OK.") :=
  (updateManifest_match_cases oneFileEnv "svc" [] newReleaseContext rfl).2.2
    "f" "doc" "doc" rfl rfl rfl rfl rfl

/-- C4 (code bug, evaluated): stage one apply manifest (id "a", bytes "m",
namespace default) and let every tool invocation fail.  The inline-buffer
engine of src/cluster/kubernetes/release.go leaves the caller's error map
EMPTY and performs no individual re-invocation (four bulk invocations only):
the staged objs are lost because `set := defaultSet` copies the executeSet by
value, so its recovery loop ranges over a nil slice.  The executeSet engine
of src/unnamed/part_000, whose recovery loop the claim describes, re-invokes
the tool once with only that manifest on standard input and records exactly
one error entry keyed by the manifest identifier. -/
theorem inline_fallback_lost_eval :
    (executeInline [] failingOracle oneManifestCS noErrors).2.1 = noErrors ∧
    (executeInline [] failingOracle oneManifestCS noErrors).1.length = 4 ∧
    (executeSetBased [] failingOracle oneManifestCS noErrors).2.1 =
      [("a", "running kubectl: boom")] ∧
    (executeSetBased [] failingOracle oneManifestCS noErrors).1 =
      [⟨["apply", "--namespace", "default", "-f", "-"], "---\nm\n"⟩,
       ⟨["apply", "--namespace", "default", "-f", "-"], "m"⟩] := by
  refine ⟨rfl, rfl, rfl, rfl⟩

/-- C7 (counterexample): the two sync implementations are not behaviorally
equivalent.  On a change-set with a single apply manifest and all tool
invocations failing, the inline-buffer engine performs four invocations
(including bulk runs for empty sub-batches) and records no error, while the
executeSet engine performs two (bulk plus one individual re-invocation) and
records the per-manifest error. -/
theorem sync_impls_differ :
    (executeInline [] failingOracle oneManifestCS noErrors).1.length ≠
      (executeSetBased [] failingOracle oneManifestCS noErrors).1.length ∧
    (executeInline [] failingOracle oneManifestCS noErrors).2.1 ≠
      (executeSetBased [] failingOracle oneManifestCS noErrors).2.1 := by
  refine ⟨?_, ?_⟩ <;> decide

/-- Staging a bucket into the two executeSets collects exactly the two
namespace partitions, with the buffers receiving the same byte streams as the
inline implementation. -/
theorem stageAll_go (l : List Obj) : ∀ (s1 s2 : ExecuteSet),
    l.foldl stagePair (s1, s2) =
      ({ s1 with rw := (l.foldl bufStep (s1.rw, s2.rw)).1,
                 objs := s1.objs ++ l.filter (fun o => o.obj.hasDefaultNamespace) },
       { s2 with rw := (l.foldl bufStep (s1.rw, s2.rw)).2,
                 objs := s2.objs ++ l.filter (fun o => !o.obj.hasDefaultNamespace) }) := by
  induction l with
  | nil => intro s1 s2; simp
  | cons o rest ih =>
    intro s1 s2
    cases h : o.obj.hasDefaultNamespace <;>
      simp [stagePair, ExecuteSet.stage, bufStep, h, ih, List.filter_cons]

theorem stageAll_eq (cmd : String) (l : List Obj) :
    stageAll cmd l =
      (⟨[cmd, "--namespace", "default"], (inlineBuffers l).1,
          l.filter (fun o => o.obj.hasDefaultNamespace)⟩,
       ⟨[cmd], (inlineBuffers l).2, l.filter (fun o => !o.obj.hasDefaultNamespace)⟩) := by
  simp [stageAll, stageAll_go, newExecuteSet, inlineBuffers]

/-- A non-empty executeSet whose bulk invocation exits zero performs exactly
that bulk invocation and leaves the error map alone. -/
theorem execSet_bulk_ok (conn : List String) (oracle : Oracle) (s : ExecuteSet)
    (errs : SyncError) (hne : s.objs ≠ [])
    (hok : oracle ⟨conn ++ s.cmd ++ ["-f", "-"], s.rw⟩ = none) :
    execSet conn oracle s errs = ([⟨conn ++ s.cmd ++ ["-f", "-"], s.rw⟩], errs) := by
  have h1 : (s.objs.length == 0) = false := by
    simp only [beq_eq_false_iff_ne, ne_eq, List.length_eq_zero]
    exact hne
  have hok' : oracle ⟨conn ++ (s.cmd ++ ["-f", "-"]), s.rw⟩ = none := by
    rw [← List.append_assoc]; exact hok
  simp [execSet, h1, doCommand, hok']

/-- One operation of the two engines agrees when both sub-batches are
non-empty and both bulk invocations exit zero. -/
theorem inline_set_step_eq (conn : List String) (oracle : Oracle) (k : ChangeSet)
    (acc : List Invocation × SyncError) (cmd : String)
    (h1 : (k.objs cmd).filter (fun o => o.obj.hasDefaultNamespace) ≠ [])
    (h2 : (k.objs cmd).filter (fun o => !o.obj.hasDefaultNamespace) ≠ [])
    (h3 : oracle ⟨conn ++ [cmd, "--namespace", "default"] ++ ["-f", "-"],
            (inlineBuffers (k.objs cmd)).1⟩ = none)
    (h4 : oracle ⟨conn ++ [cmd] ++ ["-f", "-"],
            (inlineBuffers (k.objs cmd)).2⟩ = none) :
    inlineStep conn oracle k acc cmd = setStep conn oracle k acc cmd := by
  have e1 := execSet_bulk_ok conn oracle
    ⟨[cmd, "--namespace", "default"], (inlineBuffers (k.objs cmd)).1,
      (k.objs cmd).filter (fun o => o.obj.hasDefaultNamespace)⟩ acc.2 h1 h3
  have e2 := execSet_bulk_ok conn oracle
    ⟨[cmd], (inlineBuffers (k.objs cmd)).2,
      (k.objs cmd).filter (fun o => !o.obj.hasDefaultNamespace)⟩ acc.2 h2 h4
  have h3' : oracle ⟨conn ++ [cmd, "--namespace", "default", "-f", "-"],
      (inlineBuffers (k.objs cmd)).1⟩ = none := by simpa using h3
  have h4' : oracle ⟨conn ++ [cmd, "-f", "-"],
      (inlineBuffers (k.objs cmd)).2⟩ = none := by simpa using h4
  simp only [setStep, stageAll_eq]
  rw [e1, e2]
  simp [inlineStep, doCommand, h3', h4']

/-- C7 (amended): for every staged change-set in which each operation has
both sub-batches non-empty, and every outcome assignment under which each
bulk invocation exits zero, the two sync implementations perform the same
sequence of tool invocations (the staged multi-document streams are
byte-identical) and leave the caller's error map identically unchanged.
Outside these conditions they diverge, as the counterexample shows: the
inline-buffer engine invokes the tool for empty sub-batches and, its staged
objs being lost to a value copy, never performs individual re-invocations or
error-map writes. -/
theorem sync_impls_agree_on_success (conn : List String) (oracle : Oracle)
    (k : ChangeSet) (errs : SyncError)
    (h : ∀ cmd ∈ cmds,
      (k.objs cmd).filter (fun o => o.obj.hasDefaultNamespace) ≠ [] ∧
      (k.objs cmd).filter (fun o => !o.obj.hasDefaultNamespace) ≠ [] ∧
      oracle ⟨conn ++ [cmd, "--namespace", "default"] ++ ["-f", "-"],
        (inlineBuffers (k.objs cmd)).1⟩ = none ∧
      oracle ⟨conn ++ [cmd] ++ ["-f", "-"], (inlineBuffers (k.objs cmd)).2⟩ = none) :
    (executeInline conn oracle k errs).1 = (executeSetBased conn oracle k errs).1 ∧
    (executeInline conn oracle k errs).2.1 = (executeSetBased conn oracle k errs).2.1 := by
  obtain ⟨hd1, hd2, hd3, hd4⟩ := h "delete" (by simp [cmds])
  obtain ⟨ha1, ha2, ha3, ha4⟩ := h "apply" (by simp [cmds])
  have e1 := inline_set_step_eq conn oracle k ([], errs) "delete" hd1 hd2 hd3 hd4
  have e2 := inline_set_step_eq conn oracle k
    (setStep conn oracle k ([], errs) "delete") "apply" ha1 ha2 ha3 ha4
  simp [executeInline, executeSetBased, cmds, List.foldl, e1, e2]

theorem sync_impls_agree_on_success_witness :
    (executeInline [] okOracle fourManifestCS noErrors).1 =
      (executeSetBased [] okOracle fourManifestCS noErrors).1 ∧
    (executeInline [] okOracle fourManifestCS noErrors).2.1 =
      (executeSetBased [] okOracle fourManifestCS noErrors).2.1 :=
  sync_impls_agree_on_success [] okOracle fourManifestCS noErrors (by decide)

theorem withNewTag_inj (id : ImageID) {t u : String}
    (h : id.withNewTag t = id.withNewTag u) : t = u := by
  cases id
  simpa [ImageID.withNewTag] using h

theorem classify_missing (env : WarmEnv) (id : ImageID) (tags : List String) :
    (classifyTags env id tags).2.1 =
      (tags.filter (tagMissing env)).map (fun t => id.withNewTag t) := by
  induction tags with
  | nil => rfl
  | cons tag rest ih =>
    cases hk : env.manifestKey tag with
    | error e => simp [classifyTags, tagMissing, hk, ih]
    | ok key =>
      cases hx : env.getExpiration key with
      | notCached => simp [classifyTags, tagMissing, hk, hx, ih]
      | present expiry =>
        by_cases hgt : expiry - env.now > refreshWhenExpiryWithin <;>
          simp [classifyTags, tagMissing, hk, hx, hgt, ih]
      | err e => simp [classifyTags, tagMissing, hk, hx, ih]

theorem classify_expiring (env : WarmEnv) (id : ImageID) (tags : List String) :
    (classifyTags env id tags).2.2 =
      (tags.filter (tagExpiring env)).map (fun t => id.withNewTag t) := by
  induction tags with
  | nil => rfl
  | cons tag rest ih =>
    cases hk : env.manifestKey tag with
    | error e => simp [classifyTags, tagExpiring, hk, ih]
    | ok key =>
      cases hx : env.getExpiration key with
      | notCached => simp [classifyTags, tagExpiring, hk, hx, ih]
      | present expiry =>
        by_cases hgt : expiry - env.now > refreshWhenExpiryWithin <;>
          simp [classifyTags, tagExpiring, hk, hx, hgt, ih]
      | err e => simp [classifyTags, tagExpiring, hk, hx, ih]

/-- When everything up to the tag-list store succeeds, the warm pass exposes
the classification of the fetched tags. -/
theorem warm_components (env : WarmEnv) (id : ImageID) (tags : List String)
    (hc : env.clientFor = .ok ()) (ht : env.tagsResult = .ok tags)
    (hm : ∃ v, env.marshalTags = .ok v) (hk : ∃ kk, env.tagKey = .ok kk)
    (hs : env.setTagKey = .ok ()) :
    (warm env id).missing = (classifyTags env id tags).2.1 ∧
    (warm env id).expiring = (classifyTags env id tags).2.2 ∧
    (warm env id).fetched =
      (if (classifyTags env id tags).2.2.length + (classifyTags env id tags).2.1.length > 0
        then (classifyTags env id tags).2.1 ++ (classifyTags env id tags).2.2
        else []) := by
  obtain ⟨v, hm⟩ := hm
  obtain ⟨kk, hk⟩ := hk
  refine ⟨?_, ?_, ?_⟩ <;> simp only [warm, hc, ht, hm, hk, hs] <;> split <;> rfl

/-- C8: in one warm pass, for every tag in the fetched tag list whose
manifest-cache key is well-formed: a NotCached read classifies the tag as
missing and a manifest fetch is attempted for it; a present entry expiring
more than five minutes after now is skipped, with no classification and no
fetch; a present entry expiring at most five minutes after now is classified
as expiring and a manifest fetch is attempted for it. -/
theorem warm_tag_classification (env : WarmEnv) (id : ImageID)
    (tags : List String) (tag : String) (key : String)
    (hc : env.clientFor = .ok ()) (ht : env.tagsResult = .ok tags)
    (hm : ∃ v, env.marshalTags = .ok v) (hk : ∃ kk, env.tagKey = .ok kk)
    (hs : env.setTagKey = .ok ()) (htag : tag ∈ tags)
    (hkey : env.manifestKey tag = .ok key) :
    (env.getExpiration key = .notCached →
      id.withNewTag tag ∈ (warm env id).missing ∧
      id.withNewTag tag ∈ (warm env id).fetched) ∧
    (∀ e, env.getExpiration key = .present e →
      e - env.now > refreshWhenExpiryWithin →
      id.withNewTag tag ∉ (warm env id).missing ∧
      id.withNewTag tag ∉ (warm env id).expiring ∧
      id.withNewTag tag ∉ (warm env id).fetched) ∧
    (∀ e, env.getExpiration key = .present e →
      e - env.now ≤ refreshWhenExpiryWithin →
      id.withNewTag tag ∈ (warm env id).expiring ∧
      id.withNewTag tag ∈ (warm env id).fetched) := by
  obtain ⟨cm, ce, cf⟩ := warm_components env id tags hc ht hm hk hs
  have memMissing : ∀ h : tagMissing env tag = true,
      id.withNewTag tag ∈ (classifyTags env id tags).2.1 := by
    intro h
    rw [classify_missing]
    exact List.mem_map_of_mem _ (List.mem_filter.mpr ⟨htag, h⟩)
  have memExpiring : ∀ h : tagExpiring env tag = true,
      id.withNewTag tag ∈ (classifyTags env id tags).2.2 := by
    intro h
    rw [classify_expiring]
    exact List.mem_map_of_mem _ (List.mem_filter.mpr ⟨htag, h⟩)
  have notMissing : ∀ h : tagMissing env tag = false,
      id.withNewTag tag ∉ (classifyTags env id tags).2.1 := by
    intro h hmem
    rw [classify_missing] at hmem
    obtain ⟨t, htf, hte⟩ := List.mem_map.mp hmem
    obtain rfl := withNewTag_inj id hte
    rw [(List.mem_filter.mp htf).2] at h
    simp at h
  have notExpiring : ∀ h : tagExpiring env tag = false,
      id.withNewTag tag ∉ (classifyTags env id tags).2.2 := by
    intro h hmem
    rw [classify_expiring] at hmem
    obtain ⟨t, htf, hte⟩ := List.mem_map.mp hmem
    obtain rfl := withNewTag_inj id hte
    rw [(List.mem_filter.mp htf).2] at h
    simp at h
  have fetchOf : ∀ i : ImageID,
      i ∈ (classifyTags env id tags).2.1 ∨ i ∈ (classifyTags env id tags).2.2 →
      i ∈ (warm env id).fetched := by
    intro i hi
    rw [cf]
    have hpos : (classifyTags env id tags).2.2.length +
        (classifyTags env id tags).2.1.length > 0 := by
      rcases hi with hi | hi
      · have := List.length_pos.mpr (List.ne_nil_of_mem hi); omega
      · have := List.length_pos.mpr (List.ne_nil_of_mem hi); omega
    rw [if_pos hpos]
    exact List.mem_append.mpr hi
  refine ⟨fun hx => ?_, fun e hx hgt => ?_, fun e hx hle => ?_⟩
  · have h : tagMissing env tag = true := by simp [tagMissing, hkey, hx]
    exact ⟨cm ▸ memMissing h, fetchOf _ (Or.inl (memMissing h))⟩
  · have h1 : tagMissing env tag = false := by simp [tagMissing, hkey, hx]
    have h2 : tagExpiring env tag = false := by simp [tagExpiring, hkey, hx, hgt]
    refine ⟨cm ▸ notMissing h1, ce ▸ notExpiring h2, ?_⟩
    intro hmem
    rw [cf] at hmem
    by_cases hpos : (classifyTags env id tags).2.2.length +
        (classifyTags env id tags).2.1.length > 0
    · rw [if_pos hpos] at hmem
      rcases List.mem_append.mp hmem with hmem | hmem
      · exact notMissing h1 hmem
      · exact notExpiring h2 hmem
    · rw [if_neg hpos] at hmem
      exact List.not_mem_nil _ hmem
  · have hngt : ¬ e - env.now > refreshWhenExpiryWithin := not_lt.mpr hle
    have h : tagExpiring env tag = true := by simp [tagExpiring, hkey, hx, hngt]
    exact ⟨ce ▸ memExpiring h, fetchOf _ (Or.inr (memExpiring h))⟩

theorem warm_tag_classification_witness :
    ImageID.withNewTag ⟨"h", "r", "t"⟩ "t1" ∈
      (warm notCachedWarmEnv ⟨"h", "r", "t"⟩).missing ∧
    ImageID.withNewTag ⟨"h", "r", "t"⟩ "t1" ∈
      (warm notCachedWarmEnv ⟨"h", "r", "t"⟩).fetched :=
  (warm_tag_classification notCachedWarmEnv ⟨"h", "r", "t"⟩ ["t1"] "t1" "k1"
    rfl rfl ⟨"serialized", rfl⟩ ⟨"tk", rfl⟩ rfl (by simp) rfl).1 rfl

theorem regradesForTarget_all (target : ImageID) (cs : List Container) :
    (regradesForTarget target cs).all regradeInvariant = true := by
  induction cs with
  | nil => rfl
  | cons c rest ih =>
    by_cases h1 : c.image.repository = target.repository
    · by_cases h2 : c.image = target
      · simp [regradesForTarget, h1, h2, ih]
      · simp [regradesForTarget, h1, h2, ih, regradeInvariant]
    · simp [regradesForTarget, h1, ih]

theorem allForImageMap_go (target : ImageID) :
    ∀ (cmap : List (String × List Container))
      (acc : List (String × List ContainerRegrade)),
      acc.all (fun p => p.2.all regradeInvariant) = true →
      (cmap.foldl (fun acc p =>
          if (regradesForTarget target p.2).isEmpty then acc
          else acc ++ [(p.1, regradesForTarget target p.2)]) acc).all
        (fun p => p.2.all regradeInvariant) = true := by
  intro cmap
  induction cmap with
  | nil => intro acc hacc; simpa using hacc
  | cons p rest ih =>
    intro acc hacc
    simp only [List.foldl]
    by_cases hrs : (regradesForTarget target p.2).isEmpty
    · rw [if_pos hrs]
      exact ih acc hacc
    · rw [if_neg hrs]
      refine ih _ ?_
      simp [List.all_append, hacc, regradesForTarget_all]

theorem oneToLatest_all (reg : Registry) (hreg : RegistryContract reg) :
    ∀ (cs : List Container) (rs : List ContainerRegrade),
      releaseOneToLatestRegrades reg cs = .ok rs →
      rs.all regradeInvariant = true := by
  intro cs
  induction cs with
  | nil =>
    intro rs h
    simp only [releaseOneToLatestRegrades, Except.ok.injEq] at h
    subst h; rfl
  | cons c rest ih =>
    intro rs h
    rw [releaseOneToLatestRegrades] at h
    split at h
    · simp at h
    · rename_i info hr
      split at h
      · exact ih rs h
      · split at h
        · simp at h
        · rename_i latestID hl
          split at h
          · exact ih rs h
          · rename_i heq
            split at h
            · simp at h
            · rename_i rs2 hrec
              simp only [Except.ok.injEq] at h
              subst h
              have hrepo : latestID.repository = c.image.repository :=
                hreg c.image.repository info latestID hr hl
              simp [List.all_cons, regradeInvariant, hrepo, heq, ih rs2 hrec]

theorem allToLatest_all (reg : Registry) (hreg : RegistryContract reg) :
    ∀ (cs : List Container) (rs : List ContainerRegrade),
      releaseAllToLatestRegrades reg cs = .ok rs →
      rs.all regradeInvariant = true := by
  intro cs
  induction cs with
  | nil =>
    intro rs h
    simp only [releaseAllToLatestRegrades, Except.ok.injEq] at h
    subst h; rfl
  | cons c rest ih =>
    intro rs h
    rw [releaseAllToLatestRegrades] at h
    split at h
    · simp at h
    · rename_i info hr
      split at h
      · simp at h
      · rename_i latestID hl
        split at h
        · exact ih rs h
        · rename_i heq
          split at h
          · simp at h
          · rename_i rs2 hrec
            simp only [Except.ok.injEq] at h
            subst h
            have hrepo : latestID.repository = c.image.repository :=
              hreg c.image.repository info latestID hr hl
            simp [List.all_cons, regradeInvariant, hrepo, heq, ih rs2 hrec]

theorem allToLatestMap_all (reg : Registry) (hreg : RegistryContract reg) :
    ∀ (cmap : List (String × List Container))
      (m : List (String × List ContainerRegrade)),
      releaseAllToLatestMap reg cmap = .ok m →
      m.all (fun p => p.2.all regradeInvariant) = true := by
  intro cmap
  induction cmap with
  | nil =>
    intro m h
    simp only [releaseAllToLatestMap, Except.ok.injEq] at h
    subst h; rfl
  | cons p rest ih =>
    obtain ⟨sid, cs⟩ := p
    intro m h
    rw [releaseAllToLatestMap] at h
    split at h
    · simp at h
    · rename_i rs hrs
      split at h
      · simp at h
      · rename_i m2 hm
        simp only [Except.ok.injEq] at h
        subst h
        split
        · exact ih m2 hm
        · simp [List.all_cons, allToLatest_all reg hreg cs rs hrs, ih m2 hm]

/-- C9: every container regrade constructed by any of the four image-changing
release modes pairs a current and a target reference of the same repository
(same host and repository name) and with the current reference different from
the target.  The release-one and release-all-for-image loops check both
conditions directly; the two to-latest loops check the difference directly
and inherit the repository equality from the registry contract that the
latest image of a repository belongs to that repository. -/
theorem regrade_invariant_all_modes (reg : Registry)
    (hreg : RegistryContract reg) (target : ImageID) (cs : List Container)
    (cmap : List (String × List Container)) :
    ((regradesForTarget target cs).all regradeInvariant = true) ∧
    ((releaseAllForImageMap target cmap).all
      (fun p => p.2.all regradeInvariant) = true) ∧
    (∀ rs, releaseOneToLatestRegrades reg cs = .ok rs →
      rs.all regradeInvariant = true) ∧
    (∀ m, releaseAllToLatestMap reg cmap = .ok m →
      m.all (fun p => p.2.all regradeInvariant) = true) :=
  ⟨regradesForTarget_all target cs,
   allForImageMap_go target cmap [] rfl,
   fun rs h => oneToLatest_all reg hreg cs rs h,
   fun m h => allToLatestMap_all reg hreg cmap m h⟩

theorem happyRegistry_contract : RegistryContract happyRegistry := by
  intro key info i h1 h2
  simp only [happyRegistry, Except.ok.injEq] at h1
  subst h1
  simp only [Except.ok.injEq] at h2
  subst h2
  simp [latestOf, ImageID.repository]

theorem regrade_invariant_all_modes_witness :
    ((regradesForTarget ⟨"quay.io", "hw", "v2"⟩
        [⟨"c", ⟨"quay.io", "hw", "v1"⟩⟩]).all regradeInvariant = true) ∧
    (([⟨"c", ⟨"quay.io", "hw", "v1"⟩, ⟨"quay.io", "hw", "v2"⟩⟩] :
        List ContainerRegrade).all regradeInvariant = true) :=
  ⟨(regrade_invariant_all_modes happyRegistry happyRegistry_contract
      ⟨"quay.io", "hw", "v2"⟩ [⟨"c", ⟨"quay.io", "hw", "v1"⟩⟩] []).1,
   (regrade_invariant_all_modes happyRegistry happyRegistry_contract
      ⟨"quay.io", "hw", "v2"⟩ [⟨"c", ⟨"quay.io", "hw", "v1"⟩⟩] []).2.2.1 _ rfl⟩

/-- C10: if serialising the fetched tag list fails, or constructing the
tag-list cache key fails, or writing the tag list to the cache fails, the
warm pass for that image stops at once: no per-tag cache-expiration read
happens, no tag is classified as missing or expiring, and no manifest fetch
is attempted, even though the registry returned the tags. -/
theorem warm_tag_store_failure_halts (env : WarmEnv) (id : ImageID)
    (h : (∃ e, env.marshalTags = .error e) ∨ (∃ e, env.tagKey = .error e) ∨
      (∃ e, env.setTagKey = .error e)) :
    ((warm env id).events.all
      (fun ev => !ev.isPerTagRead && !ev.isManifestRequest)) = true ∧
    (warm env id).missing = [] ∧ (warm env id).expiring = [] ∧
    (warm env id).fetched = [] := by
  cases hc : env.clientFor with
  | error e =>
    simp [warm, hc, WarmEvent.isPerTagRead, WarmEvent.isManifestRequest]
  | ok u =>
    cases ht : env.tagsResult with
    | error e =>
      simp [warm, hc, ht, WarmEvent.isPerTagRead, WarmEvent.isManifestRequest]
    | ok tags =>
      rcases h with ⟨e, he⟩ | ⟨e, he⟩ | ⟨e, he⟩
      · simp [warm, hc, ht, he, WarmEvent.isPerTagRead, WarmEvent.isManifestRequest]
      · cases hm : env.marshalTags with
        | error e2 =>
          simp [warm, hc, ht, hm, WarmEvent.isPerTagRead, WarmEvent.isManifestRequest]
        | ok v =>
          simp [warm, hc, ht, hm, he, WarmEvent.isPerTagRead, WarmEvent.isManifestRequest]
      · cases hm : env.marshalTags with
        | error e2 =>
          simp [warm, hc, ht, hm, WarmEvent.isPerTagRead, WarmEvent.isManifestRequest]
        | ok v =>
          cases hk : env.tagKey with
          | error e2 =>
            simp [warm, hc, ht, hm, hk, WarmEvent.isPerTagRead,
              WarmEvent.isManifestRequest]
          | ok kk =>
            simp [warm, hc, ht, hm, hk, he, WarmEvent.isPerTagRead,
              WarmEvent.isManifestRequest]

theorem warm_tag_store_failure_halts_witness :
    ((warm marshalFailWarmEnv ⟨"h", "r", "t"⟩).events.all
      (fun ev => !ev.isPerTagRead && !ev.isManifestRequest)) = true ∧
    (warm marshalFailWarmEnv ⟨"h", "r", "t"⟩).missing = [] ∧
    (warm marshalFailWarmEnv ⟨"h", "r", "t"⟩).expiring = [] ∧
    (warm marshalFailWarmEnv ⟨"h", "r", "t"⟩).fetched = [] :=
  warm_tag_store_failure_halts marshalFailWarmEnv ⟨"h", "r", "t"⟩
    (Or.inl ⟨"marshal", rfl⟩)

end Flux
